import Mathlib

/-!
# QR Code generator demo: renderers and the engine interface

A shallow embedding of `QrCodeGeneratorDemo.cpp`.  The demo consumes a finished
QR Code only through `getSize()` and `getModule(x, y)`; it renders the symbol as
SVG text (`toSvgString`), as console text (`printQr`) and as CGA pixels
(`printQrCGA`).

* C++ `int` values are mathematical integers (`Int`).  In `toSvgString`, which
  guards against overflow itself, every signed operation is checked against the
  range `[-INT_MAX - 1, INT_MAX]`; a result outside of it is undefined
  behaviour.  `INT_MAX` comes from `<climits>` and is a parameter.  The other
  two renderers only add the constant border 4 to coordinates of the symbol
  and are modelled over `Int` directly.
* `std::string` is `String`; `sprintf(buffer, "%d", v)` is `sprintf_d v`.
* Each renderer run records, next to its output, the coordinates of every
  `getModule` call in call order.
-/

namespace QrDemo

/-! ## The engine interface used by the demo -/

/-- The part of `qrcodegen::QrCode` the renderers depend on: `getSize()` and
`getModule(x, y)` (true means dark). -/
structure QrCode where
  getSize : Int
  getModule : Int → Int → Bool

/-- What a renderer run does that can be observed: the arguments of every
`getModule` call, in call order; the text appended to the string being built or
written to the console; the pixels stored by `setPixel`. -/
structure Run where
  calls : List (Int × Int) := []
  out : String := ""
  pixels : List (Int × Int × Int) := []
  deriving DecidableEq

/-- Result of a call of a function that may throw. -/
inductive Outcome (α : Type) where
  | returned (a : α)
  | domain_error (what : String)
  | overflow_error (what : String)
  | undefined
  deriving DecidableEq

/-- Projection of the returned value through a function. -/
def Outcome.map {α β : Type} (f : α → β) : Outcome α → Outcome β
  | .returned a => .returned (f a)
  | .domain_error w => .domain_error w
  | .overflow_error w => .overflow_error w
  | .undefined => .undefined

/-! ## Machine arithmetic and formatting -/

/-- A signed `int` result: defined only inside `[-INT_MAX - 1, INT_MAX]`. -/
def ckInt (INT_MAX v : Int) : Option Int :=
  if -INT_MAX - 1 ≤ v ∧ v ≤ INT_MAX then some v else none

/-- Text produced by `sprintf(buffer, "%d", v)`: decimal digits, with a leading
minus sign for a negative value. -/
def sprintf_d (v : Int) : String :=
  if v < 0 then "-" ++ Nat.repr v.natAbs else Nat.repr v.natAbs

/-- Loop `for (int i = lo; i < hi; i++) body(i)` whose body cannot fail: the body
runs at `lo, lo + 1, ..., hi - 1`, that is `hi - lo` times (`count`), threading
the state. -/
def forCount {σ : Type} (body : Int → σ → σ) : Nat → Int → σ → σ
  | 0, _, s => s
  | count + 1, i, s => forCount body count (i + 1) (body i s)

/-- The loop `for (int i = lo; i < hi; i++) body(i)` with a total body. -/
def forLoop {σ : Type} (lo hi : Int) (body : Int → σ → σ) (s : σ) : σ :=
  forCount body (hi - lo).toNat lo s

/-- Counted loop whose body may hit undefined behaviour (`none`), which ends
the run. -/
def forCountM {σ : Type} (body : Int → σ → Option σ) : Nat → Int → σ → Option σ
  | 0, _, s => some s
  | count + 1, i, s =>
    match body i s with
    | none => none
    | some s1 => forCountM body count (i + 1) s1

/-- The loop `for (int i = lo; i < hi; i++) body(i)` with a body that may hit
undefined behaviour. -/
def forLoopM {σ : Type} (lo hi : Int) (body : Int → σ → Option σ) (s : σ) : Option σ :=
  forCountM body (hi - lo).toNat lo s

/-! ## `toSvgString` -/

/-- The overflow guard `border > INT_MAX / 2 || border * 2 > INT_MAX - qr.getSize()`
with checked signed arithmetic; `||` evaluates its right operand only when the
left one is false.  `none` means that evaluating the guard overflowed. -/
def borderTooLarge (INT_MAX size border : Int) : Option Bool :=
  if border > Int.tdiv INT_MAX 2 then some true
  else
    match ckInt INT_MAX (border * 2), ckInt INT_MAX (INT_MAX - size) with
    | some l, some r => some (decide (l > r))
    | _, _ => none

/-- Body of the inner loop of `toSvgString` at column `x` of row `y`: the
condition calls `getModule(x, y)`; a dark module appends one sub-path. -/
def svgCell (INT_MAX : Int) (qr : QrCode) (border y x : Int) (s : Run) : Option Run :=
  let s1 : Run := { s with calls := s.calls ++ [(x, y)] }
  if qr.getModule x y then
    match ckInt INT_MAX (x + border), ckInt INT_MAX (y + border) with
    | some px, some py =>
      some { s1 with out := s1.out ++ " M" ++ sprintf_d px ++ "," ++ sprintf_d py ++ "h1v1h-1z" }
    | _, _ => none
  else some s1

/-- One pass of the outer loop of `toSvgString`: row `y`, all columns. -/
def svgRow (INT_MAX : Int) (qr : QrCode) (border y : Int) (s : Run) : Option Run :=
  forLoopM 0 qr.getSize (svgCell INT_MAX qr border y) s

/-- The text `toSvgString` has built when it reaches the loops, given the value
`qr.getSize() + border * 2` printed twice. -/
def svgHead (total : Int) : String :=
  "" ++ "<?xml version=\"1.0\" encoding=\"UTF-8\"?>\n"
    ++ "<!DOCTYPE svg PUBLIC \"-//W3C//DTD SVG 1.1//EN\" \"http://www.w3.org/Graphics/SVG/1.1/DTD/svg11.dtd\">\n"
    ++ "<svg xmlns=\"http://www.w3.org/2000/svg\" version=\"1.1\" viewBox=\"0 0 "
    ++ sprintf_d total
    ++ " "
    ++ sprintf_d total
    ++ "\" stroke=\"none\">\n"
    ++ "\t<rect width=\"100%\" height=\"100%\" fill=\"#FFFFFF\"/>\n"
    ++ "\t<path d=\""

/-- The function `toSvgString(qr, border)`, together with the record of its
`getModule` calls. -/
def toSvgStringRun (INT_MAX : Int) (qr : QrCode) (border : Int) : Outcome Run :=
  if border < 0 then .domain_error "Border must be non-negative"
  else
    match borderTooLarge INT_MAX qr.getSize border with
    | none => .undefined
    | some true => .overflow_error "Border too large"
    | some false =>
      match (ckInt INT_MAX (border * 2)).bind (fun d => ckInt INT_MAX (qr.getSize + d)) with
      | none => .undefined
      | some total =>
        match forLoopM 0 qr.getSize (svgRow INT_MAX qr border) { out := svgHead total } with
        | none => .undefined
        | some s =>
          .returned { s with out := s.out ++ "\" fill=\"#000000\"/>\n" ++ "</svg>\n" }

/-- The value of `toSvgString(qr, border)`: the string returned, or the exception
thrown. -/
def toSvgString (INT_MAX : Int) (qr : QrCode) (border : Int) : Outcome String :=
  (toSvgStringRun INT_MAX qr border).map Run.out

/-! ## `printQr` -/

/-- Body of the inner loop of `printQr`: one `getModule(x, y)` call, and two
block characters for a dark module or two spaces for a light one. -/
def printQrCell (qr : QrCode) (y x : Int) (s : Run) : Run :=
  { s with
    calls := s.calls ++ [(x, y)]
    out := s.out ++ (if qr.getModule x y then "\xDB\xDB" else "  ") }

/-- One pass of the outer loop of `printQr`: the cells of row `y`, then a line
end. -/
def printQrRow (qr : QrCode) (border y : Int) (s : Run) : Run :=
  let s1 := forLoop (-border) (qr.getSize + border) (printQrCell qr y) s
  { s1 with out := s1.out ++ "\n" }

/-- The function `printQr(qr)`: the symbol with a border of 4 modules, as
console text. -/
def printQr (qr : QrCode) : Run :=
  let border : Int := 4
  let s := forLoop (-border) (qr.getSize + border) (printQrRow qr border) {}
  { s with out := s.out ++ "\n" }

/-! ## `printQrCGA` -/

/-- The function `setPixel(x, y, color)`: a position outside the 320 by 200
screen is ignored; otherwise the two bits `color & 0x03` are stored at the
position.  The store into video memory is recorded as position and colour. -/
def setPixel (x y color : Int) (s : Run) : Run :=
  if x < 0 ∨ x ≥ 320 ∨ y < 0 ∨ y ≥ 200 then s
  else { s with pixels := s.pixels ++ [(x, y, color % 4)] }

/-- Body of the column loop of `printQrCGA`: one `getModule(x, y)` call, then
the module is plotted as a block of `scaleX` by `scaleY` pixels. -/
def cgaCell (qr : QrCode) (border scaleX scaleY startX startY y x : Int) (s : Run) : Run :=
  let s1 : Run := { s with calls := s.calls ++ [(x, y)] }
  let color : Int := if qr.getModule x y then 0 else 1
  forLoop 0 scaleY (fun dy s2 =>
    forLoop 0 scaleX (fun dx s3 =>
      let xPos := startX + (x + border) * scaleX + dx
      let yPos := startY + (y + border) * scaleY + dy
      setPixel xPos yPos color s3) s2) s1

/-- The function `printQrCGA(qr, info)`: refuses a symbol that does not fit the
screen (message on the error stream, recorded in `out`), otherwise prints
`info` and plots every module of the symbol and of its border of 4 modules.
Switching the video mode and waiting for a key are not part of the record. -/
def printQrCGA (qr : QrCode) (info : String) : Run :=
  let border : Int := 4
  let scaleX : Int := 1
  let scaleY : Int := 1
  let qrSize := qr.getSize + 2 * border
  let pixelWidth := qrSize * scaleX
  let pixelHeight := qrSize * scaleY
  if pixelWidth > 320 ∨ pixelHeight > 200 then
    { out := "Error: QR code is too large to fit on the screen.\n" }
  else
    let startX := Int.tdiv (320 - pixelWidth) 2
    let startY := Int.tdiv (200 - pixelHeight) 2
    forLoop (-border) (qr.getSize + border) (fun y s =>
      forLoop (-border) (qr.getSize + border)
        (cgaCell qr border scaleX scaleY startX startY y) s) { out := info ++ "\n" }

/-! ## What the SVG text should be -/

/-- The integers `lo, lo + 1, ...`, `count` of them. -/
def intRange : Int → Nat → List Int
  | _, 0 => []
  | lo, count + 1 => lo :: intRange (lo + 1) count

/-- Coordinates `(x, y)` of a symbol of side `n` in row-major order: `y` from 0
to `n - 1`, and `x` from 0 to `n - 1` inside each `y`. -/
def rowMajor (n : Int) : List (Int × Int) :=
  (intRange 0 n.toNat).flatMap (fun y => (intRange 0 n.toNat).map (fun x => (x, y)))

/-- The dark modules of a symbol, in row-major order. -/
def darkModules (qr : QrCode) : List (Int × Int) :=
  (rowMajor qr.getSize).filter (fun p => qr.getModule p.1 p.2)

/-- The sub-path of one module: a unit square at the module's position shifted
by the border. -/
def subPath (border : Int) (p : Int × Int) : String :=
  " M" ++ sprintf_d (p.1 + border) ++ "," ++ sprintf_d (p.2 + border) ++ "h1v1h-1z"

/-- The `d` attribute of the path: the sub-paths of the dark modules, in
row-major order. -/
def pathData (qr : QrCode) (border : Int) : String :=
  String.join ((darkModules qr).map (subPath border))

/-- The SVG document for a symbol and a border: header, `svg` element with the
view box of side `getSize + 2 * border`, white background, one path. -/
def svgDocument (qr : QrCode) (border : Int) : String :=
  "<?xml version=\"1.0\" encoding=\"UTF-8\"?>\n"
    ++ "<!DOCTYPE svg PUBLIC \"-//W3C//DTD SVG 1.1//EN\" \"http://www.w3.org/Graphics/SVG/1.1/DTD/svg11.dtd\">\n"
    ++ "<svg xmlns=\"http://www.w3.org/2000/svg\" version=\"1.1\" viewBox=\"0 0 "
    ++ sprintf_d (qr.getSize + 2 * border) ++ " " ++ sprintf_d (qr.getSize + 2 * border)
    ++ "\" stroke=\"none\">\n"
    ++ "\t<rect width=\"100%\" height=\"100%\" fill=\"#FFFFFF\"/>\n"
    ++ "\t<path d=\"" ++ pathData qr border ++ "\" fill=\"#000000\"/>\n"
    ++ "</svg>\n"

/-! ## Properties the renderers are checked against -/

/-- All recorded `getModule` calls are inside the symbol: `0 <= x < getSize()`
and `0 <= y < getSize()`. -/
def callsInRange (qr : QrCode) (calls : List (Int × Int)) : Prop :=
  ∀ p ∈ calls, (0 ≤ p.1 ∧ p.1 < qr.getSize) ∧ (0 ≤ p.2 ∧ p.2 < qr.getSize)

/-- All recorded `getModule` calls are inside the symbol widened by `border`
modules on each side. -/
def callsInBorder (qr : QrCode) (border : Int) (calls : List (Int × Int)) : Prop :=
  ∀ p ∈ calls, (-border ≤ p.1 ∧ p.1 < qr.getSize + border) ∧
    (-border ≤ p.2 ∧ p.2 < qr.getSize + border)

/-- Characters that end a line in some convention: line feed, carriage return,
vertical tab, form feed, next line, line separator, paragraph separator. -/
def isLineBreak (c : Char) : Bool :=
  c.toNat == 0x0A || c.toNat == 0x0D || c.toNat == 0x0B || c.toNat == 0x0C
    || c.toNat == 0x85 || c.toNat == 0x2028 || c.toNat == 0x2029

/-- The text one row contributes to the path. -/
def rowText (qr : QrCode) (b y : Int) : String :=
  String.join ((intRange 0 qr.getSize.toNat).map
    (fun x => if qr.getModule x y then subPath b (x, y) else ""))

/-- Characters of plain ASCII text: line feed, tab, and the printable range. -/
def plainChar (c : Char) : Bool :=
  c == '\n' || c == '\t' || (decide (32 ≤ c.toNat) && decide (c.toNat < 127))

/-- All characters of the string are plain ASCII text. -/
def isPlain (s : String) : Prop := ∀ c ∈ s.data, plainChar c = true

/-- The set of dark modules of a symbol. -/
def darkSet (qr : QrCode) : Finset (Int × Int) :=
  (Finset.Ico 0 qr.getSize ×ˢ Finset.Ico 0 qr.getSize).filter (fun p => qr.getModule p.1 p.2 = true)

/-- Coordinates `(x, y)` of a square grid in row-major order, both coordinates
running over `lo, lo + 1, ...`, `count` values each. -/
def grid (lo : Int) (count : Nat) : List (Int × Int) :=
  (intRange lo count).flatMap (fun y => (intRange lo count).map (fun x => (x, y)))

/-! ## The engine, from its specification

`qrcodegen.hpp` and its implementation are not among the sources; the demo only
calls them.  The part of the engine that fixes the size of a result is modelled
from the specification: segments, bit totals, version selection, the optional
boost of the error-correction level, and the order of the later stages.  -/

/-- Modelled from the spec: the character modes of a segment (data model of the
engine, absent from the sources). -/
inductive Mode where
  | NUMERIC | ALPHANUMERIC | BYTE | KANJI
  deriving DecidableEq

/-- Modelled from the spec: the error-correction levels of the engine, absent
from the sources, from weakest to strongest. -/
inductive Ecc where
  | LOW | MEDIUM | QUARTILE | HIGH
  deriving DecidableEq

/-- Modelled from the spec: a segment of the engine (absent from the sources):
mode, character count, ordered bit payload. -/
structure QrSegment where
  mode : Mode
  numChars : Nat
  data : List Bool

/-- Modelled from the spec: the module matrix of the engine (absent from the
sources), as the colour of each coordinate. -/
abbrev Matrix := Int → Int → Bool

/-- Modelled from the spec: the static tables of the engine and its stages
after version selection, all absent from the sources.  The specification names
them without listing their values: the version-banded width of the
character-count field, the data-codeword capacity per version and level, the
Codeword Builder, the Matrix Builder (which may end in an invariant violation),
the application of one mask pattern with its format information, and the
penalty score of a masked matrix. -/
structure Engine where
  numCharCountBits : Mode → Nat → Nat
  numDataCodewords : Nat → Ecc → Nat
  buildCodewords : Nat → Ecc → List QrSegment → List Nat
  buildMatrix : Nat → List Nat → Option Matrix
  applyMask : Nat → Ecc → Fin 8 → Matrix → Matrix
  penalty : Matrix → Nat

/-- Modelled from the spec: the failures of `encodeSegments` in the engine,
absent from the sources. -/
inductive EncodeError where
  | DataTooLongError
  | InvariantViolation
  deriving DecidableEq

/-- Modelled from the spec: the Result of the engine (absent from the sources):
the version, level and mask in effect and the finished matrix. -/
structure Result where
  version : Nat
  errorCorrectionLevel : Ecc
  mask : Fin 8
  modules : Matrix

/-- Modelled from the spec: `Result.size()` of the engine, absent from the
sources: the matrix side is 4 × version + 17. -/
def Result.size (r : Result) : Int := 4 * (r.version : Int) + 17

/-- Modelled from the spec: the two accessors of a Result, absent from the
sources, as the interface the renderers consume. -/
def Result.toQrCode (r : Result) : QrCode :=
  { getSize := r.size, getModule := r.modules }

/-- Modelled from the spec: `totalBits(segments, version)` of the engine, absent
from the sources: per segment a 4-bit mode indicator, the count field and the
payload bits; fails if a character count does not fit its count field. -/
def totalBits (E : Engine) : List QrSegment → Nat → Option Nat
  | [], _ => some 0
  | seg :: rest, version =>
    let ccbits := E.numCharCountBits seg.mode version
    if seg.numChars ≥ 2 ^ ccbits then none
    else (totalBits E rest version).map (fun r => 4 + ccbits + seg.data.length + r)

/-- Modelled from the spec: the capacity test of the Capacity Planner of the
engine, absent from the sources: the data-codeword capacity in bits is at least
the total bits plus a 4-bit terminator. -/
def fitsVersion (E : Engine) (segs : List QrSegment) (ecl : Ecc) (version : Nat) : Bool :=
  match totalBits E segs version with
  | none => false
  | some used => decide (used + 4 ≤ E.numDataCodewords version ecl * 8)

/-- Modelled from the spec: version selection of the Capacity Planner of the
engine, absent from the sources: versions are scanned ascending within
`[minVersion, maxVersion]` and the smallest that suffices is picked. -/
def selectVersion (E : Engine) (segs : List QrSegment) (ecl : Ecc)
    (minVersion maxVersion : Nat) : Option Nat :=
  (List.range' minVersion (maxVersion + 1 - minVersion)).find? (fitsVersion E segs ecl)

/-- Modelled from the spec: the order of the error-correction levels of the
engine (absent from the sources) by strength, as a rank. -/
def Ecc.rank : Ecc → Nat
  | .LOW => 0
  | .MEDIUM => 1
  | .QUARTILE => 2
  | .HIGH => 3

/-- Modelled from the spec: the boost of the error-correction level in the
engine, absent from the sources: a stronger level that fits within the chosen
version replaces the requested one. -/
def boostEcc (E : Engine) (segs : List QrSegment) (version : Nat) (ecl : Ecc) : Ecc :=
  [Ecc.MEDIUM, Ecc.QUARTILE, Ecc.HIGH].foldl
    (fun best newEcl =>
      if best.rank < newEcl.rank ∧ fitsVersion E segs newEcl version = true then newEcl else best)
    ecl

/-- Modelled from the spec: automatic mask selection of the Mask Engine, absent
from the sources: the masks are scored in ascending order and the lowest
penalty wins, ties going to the smallest id. -/
def chooseMask (E : Engine) (version : Nat) (ecl : Ecc) (m : Matrix) : Fin 8 :=
  (List.finRange 8).foldl
    (fun best k =>
      if E.penalty (E.applyMask version ecl k m) < E.penalty (E.applyMask version ecl best m)
      then k else best)
    0

/-- Modelled from the spec: `encodeSegments(segments, eccLevel, minVersion,
maxVersion, maskId, boostEccIfPossible)` of the engine, absent from the
sources.  `maskId = none` is automatic selection.  The stages run in the order
of the specification: Capacity Planner, boost, Codeword Builder, Matrix
Builder, Mask Engine. -/
def encodeSegments (E : Engine) (segs : List QrSegment) (ecl : Ecc)
    (minVersion maxVersion : Nat) (maskId : Option (Fin 8)) (boostEccIfPossible : Bool) :
    Except EncodeError Result :=
  match selectVersion E segs ecl minVersion maxVersion with
  | none => .error .DataTooLongError
  | some version =>
    let ecl1 := if boostEccIfPossible then boostEcc E segs version ecl else ecl
    let codewords := E.buildCodewords version ecl1 segs
    match E.buildMatrix version codewords with
    | none => .error .InvariantViolation
    | some unmasked =>
      let mask := match maskId with
        | some forced => forced
        | none => chooseMask E version ecl1 unmasked
      .ok { version := version
            errorCorrectionLevel := ecl1
            mask := mask
            modules := E.applyMask version ecl1 mask unmasked }

/-! ## Sample inputs -/

/-- A 3 by 3 symbol with dark modules on the main diagonal. -/
def diag3 : QrCode := { getSize := 3, getModule := fun x y => decide (x = y) }

/-- A symbol of the smallest QR Code size, 21 by 21, with a checkerboard of
modules. -/
def sample21 : QrCode := { getSize := 21, getModule := fun x y => decide ((x + y) % 2 = 0) }

/-- Tables of a toy engine: 8-bit count fields, the data-codeword counts of
version 1 scaled by the version, no codewords placed, masks that leave the
matrix alone. -/
def sampleEngine : Engine :=
  { numCharCountBits := fun _ _ => 8
    numDataCodewords := fun version ecl =>
      version * (match ecl with | .LOW => 19 | .MEDIUM => 16 | .QUARTILE => 13 | .HIGH => 9)
    buildCodewords := fun _ _ _ => []
    buildMatrix := fun _ _ => some (fun _ _ => false)
    applyMask := fun _ _ _ m => m
    penalty := fun _ => 0 }

/-- Thirteen characters in byte mode: 104 payload bits. -/
def sampleSegment : QrSegment :=
  { mode := .BYTE, numChars := 13, data := List.replicate 104 false }

/-! ## Strings -/

theorem foldl_append_join (l : List String) (acc : String) :
    List.foldl (fun r s => r ++ s) acc l = acc ++ String.join l := by
  induction l generalizing acc with
  | nil => simp [String.join]
  | cons a l ih =>
    have h1 := ih (acc ++ a)
    have h2 := ih ("" ++ a)
    simp only [String.join, List.foldl_cons] at h1 h2 ⊢
    rw [h1, h2, String.empty_append, String.append_assoc]

theorem join_nil : String.join [] = "" := rfl

theorem join_cons (a : String) (l : List String) :
    String.join (a :: l) = a ++ String.join l := by
  have h := foldl_append_join l ("" ++ a)
  simp only [String.empty_append] at h
  simpa [String.join] using h

theorem join_append (l1 l2 : List String) :
    String.join (l1 ++ l2) = String.join l1 ++ String.join l2 := by
  induction l1 with
  | nil => simp [join_nil]
  | cons a l ih => simp [join_cons, ih, String.append_assoc]

theorem join_map_filter {α : Type} (f : α → String) (p : α → Bool) (l : List α) :
    String.join ((l.filter p).map f) = String.join (l.map (fun a => if p a then f a else "")) := by
  induction l with
  | nil => rfl
  | cons a l ih =>
    by_cases h : p a = true
    · simp [List.filter_cons, h, join_cons, ih]
    · simp [List.filter_cons, h, join_cons, ih]

theorem join_map_flatMap {α β : Type} (g : β → String) (h : α → List β) (l : List α) :
    String.join ((l.flatMap h).map g) = String.join (l.map (fun a => String.join ((h a).map g))) := by
  induction l with
  | nil => rfl
  | cons a l ih => simp [List.flatMap_cons, join_append, join_cons, ih]

/-! ## Loops -/

theorem flatMap_single {α β : Type} (f : α → β) (l : List α) :
    l.flatMap (fun x => [f x]) = l.map f := by
  induction l with
  | nil => rfl
  | cons a l ih => simp [List.flatMap_cons, ih]

theorem mem_intRange (i : Int) : ∀ (k : Nat) (lo : Int), i ∈ intRange lo k ↔ lo ≤ i ∧ i < lo + k := by
  intro k
  induction k with
  | zero => intro lo; simp only [intRange, List.not_mem_nil, Nat.cast_zero, add_zero, false_iff]; omega
  | succ k ih =>
    intro lo
    simp only [intRange, List.mem_cons, ih]
    push_cast
    omega

theorem forCountM_eq_forCount {σ : Type} (body : Int → σ → Option σ) (step : Int → σ → σ) :
    ∀ (k : Nat) (lo : Int) (s : σ),
      (∀ i t, lo ≤ i → i < lo + k → body i t = some (step i t)) →
      forCountM body k lo s = some (forCount step k lo s) := by
  intro k
  induction k with
  | zero => intro lo s _; rfl
  | succ k ih =>
    intro lo s h
    have h0 := h lo s (le_refl _) (by push_cast; omega)
    simp only [forCountM, forCount, h0]
    apply ih
    intro i t h1 h2
    exact h i t (by omega) (by push_cast; omega)

theorem forCount_run (body : Int → Run → Run) (c : Int → List (Int × Int)) (t : Int → String)
    (hb : ∀ i s, body i s = { calls := s.calls ++ c i, out := s.out ++ t i, pixels := s.pixels }) :
    ∀ (k : Nat) (lo : Int) (s : Run),
      forCount body k lo s =
        { calls := s.calls ++ (intRange lo k).flatMap c
          out := s.out ++ String.join ((intRange lo k).map t)
          pixels := s.pixels } := by
  intro k
  induction k with
  | zero => intro lo s; simp [forCount, intRange, join_nil]
  | succ k ih =>
    intro lo s
    simp [forCount, intRange, ih, hb, join_cons, String.append_assoc]

theorem forCount_calls (body : Int → Run → Run) (c : Int → List (Int × Int))
    (hb : ∀ i s, (body i s).calls = s.calls ++ c i) :
    ∀ (k : Nat) (lo : Int) (s : Run),
      (forCount body k lo s).calls = s.calls ++ (intRange lo k).flatMap c := by
  intro k
  induction k with
  | zero => intro lo s; simp [forCount, intRange]
  | succ k ih =>
    intro lo s
    simp [forCount, intRange, ih, hb]

/-! ## `toSvgString` -/

theorem ckInt_of_mem {M v : Int} (h1 : -M - 1 ≤ v) (h2 : v ≤ M) : ckInt M v = some v := by
  simp [ckInt, h1, h2]

theorem ckInt_eq_some {M v w : Int} (h : ckInt M v = some w) : w = v ∧ -M - 1 ≤ v ∧ v ≤ M := by
  unfold ckInt at h
  split at h
  · rename_i hr
    simp only [Option.some.injEq] at h
    exact ⟨h.symm, hr.1, hr.2⟩
  · simp at h

/-- Inside the guard no cell of the symbol overflows: the cell behaves as a
plain step on the record. -/
theorem svgCell_eq (M : Int) (qr : QrCode) (b y x : Int) (s : Run)
    (hb : 0 ≤ b) (hM : qr.getSize + 2 * b ≤ M)
    (hy : 0 ≤ y) (hy2 : y < qr.getSize) (hx : 0 ≤ x) (hx2 : x < qr.getSize) :
    svgCell M qr b y x s =
      some { calls := s.calls ++ [(x, y)]
             out := s.out ++ (if qr.getModule x y then subPath b (x, y) else "")
             pixels := s.pixels } := by
  unfold svgCell
  by_cases hd : qr.getModule x y = true
  · rw [ckInt_of_mem (by omega) (by omega), ckInt_of_mem (by omega) (by omega)]
    simp [hd, subPath, String.append_assoc]
  · simp [hd]

theorem svgRow_eq (M : Int) (qr : QrCode) (b y : Int) (s : Run)
    (hb : 0 ≤ b) (hM : qr.getSize + 2 * b ≤ M) (hy : 0 ≤ y) (hy2 : y < qr.getSize) :
    svgRow M qr b y s =
      some { calls := s.calls ++ (intRange 0 qr.getSize.toNat).map (fun x => (x, y))
             out := s.out ++ rowText qr b y
             pixels := s.pixels } := by
  unfold svgRow forLoopM
  rw [forCountM_eq_forCount _
    (fun x s => { calls := s.calls ++ [(x, y)]
                  out := s.out ++ (if qr.getModule x y then subPath b (x, y) else "")
                  pixels := s.pixels })]
  · rw [forCount_run _ (fun x => [(x, y)])
      (fun x => if qr.getModule x y then subPath b (x, y) else "") (fun _ _ => rfl)]
    simp [rowText, flatMap_single]
  · intro i t h1 h2
    have h3 : ((qr.getSize - 0).toNat : Int) = qr.getSize := by
      rw [Int.toNat_of_nonneg] <;> omega
    exact svgCell_eq M qr b y i t hb hM hy hy2 h1 (by omega)

theorem rowMajor_eq (n : Int) :
    rowMajor n = (intRange 0 n.toNat).flatMap (fun y => (intRange 0 n.toNat).map (fun x => (x, y))) :=
  rfl

theorem pathData_eq (qr : QrCode) (b : Int) :
    pathData qr b = String.join ((intRange 0 qr.getSize.toNat).map (rowText qr b)) := by
  unfold pathData darkModules
  rw [join_map_filter, rowMajor_eq, join_map_flatMap]
  simp only [List.map_map, Function.comp_def]
  rfl

theorem svgDocument_eq (qr : QrCode) (b : Int) :
    svgDocument qr b =
      svgHead (qr.getSize + b * 2)
        ++ String.join ((intRange 0 qr.getSize.toNat).map (rowText qr b))
        ++ "\" fill=\"#000000\"/>\n" ++ "</svg>\n" := by
  unfold svgDocument svgHead
  rw [pathData_eq, mul_comm 2 b]
  simp only [String.append_assoc, String.empty_append]

/-- Inside the guard the run of `toSvgString` returns, having asked for every
module of the symbol in row-major order and built the expected document. -/
theorem toSvgStringRun_eq (M : Int) (qr : QrCode) (b : Int)
    (hn : 0 ≤ qr.getSize) (hb : 0 ≤ b) (hM : qr.getSize + 2 * b ≤ M) :
    toSvgStringRun M qr b =
      .returned { calls := rowMajor qr.getSize, out := svgDocument qr b, pixels := [] } := by
  have hM0 : 0 ≤ M := by omega
  have hdiv : ¬ b > Int.tdiv M 2 := by
    rw [Int.tdiv_eq_ediv hM0 (by decide)]
    omega
  have hguard : borderTooLarge M qr.getSize b = some false := by
    unfold borderTooLarge
    rw [if_neg hdiv, ckInt_of_mem (by omega) (by omega), ckInt_of_mem (by omega) (by omega)]
    simp
    omega
  unfold toSvgStringRun
  rw [if_neg (by omega), hguard]
  simp only
  rw [ckInt_of_mem (by omega) (by omega)]
  simp only [Option.some_bind]
  rw [ckInt_of_mem (by omega) (by omega)]
  simp only
  unfold forLoopM
  rw [forCountM_eq_forCount _
    (fun y s => { calls := s.calls ++ (intRange 0 qr.getSize.toNat).map (fun x => (x, y))
                  out := s.out ++ rowText qr b y
                  pixels := s.pixels })]
  · rw [forCount_run _ (fun y => (intRange 0 qr.getSize.toNat).map (fun x => (x, y)))
      (rowText qr b) (fun _ _ => rfl)]
    rw [svgDocument_eq, rowMajor_eq]
    simp only [Int.sub_zero, List.nil_append, String.append_assoc]
  · intro i t h1 h2
    have h3 : ((qr.getSize - 0).toNat : Int) = qr.getSize := by
      rw [Int.toNat_of_nonneg] <;> omega
    exact svgRow_eq M qr b i t hb hM h1 (by omega)

theorem borderTooLarge_eq (M n b : Int) (hn : 0 ≤ n) (hnM : n ≤ M) (hb : 0 ≤ b) :
    borderTooLarge M n b = some (decide (n + 2 * b > M)) := by
  have hM0 : 0 ≤ M := by omega
  have hd : Int.tdiv M 2 = M / 2 := Int.tdiv_eq_ediv hM0 (by decide)
  unfold borderTooLarge
  by_cases h : b > Int.tdiv M 2
  · rw [if_pos h]
    have : n + 2 * b > M := by omega
    simp [this]
  · rw [if_neg h, ckInt_of_mem (by omega) (by omega), ckInt_of_mem (by omega) (by omega)]
    simp only [Option.some.injEq, decide_eq_decide]
    omega

theorem borderTooLarge_false {M n b : Int}
    (h : borderTooLarge M n b = some false) : 0 ≤ n ∧ n + 2 * b ≤ M := by
  unfold borderTooLarge at h
  split at h
  · simp at h
  · split at h
    · rename_i l r h1 h2
      obtain ⟨e1, _, _⟩ := ckInt_eq_some h1
      obtain ⟨e2, _, _⟩ := ckInt_eq_some h2
      simp only [Option.some.injEq, decide_eq_false_iff_not] at h
      omega
    · simp at h

theorem toSvgStringRun_returned {M : Int} {qr : QrCode} {b : Int} {r : Run}
    (h : toSvgStringRun M qr b = .returned r) :
    0 ≤ b ∧ 0 ≤ qr.getSize ∧ qr.getSize + 2 * b ≤ M := by
  unfold toSvgStringRun at h
  split at h
  · simp at h
  · rename_i hb
    split at h
    · simp at h
    · simp at h
    · rename_i hg
      have := borderTooLarge_false hg
      omega

theorem toSvgString_returned {M : Int} {qr : QrCode} {b : Int} {str : String}
    (h : toSvgString M qr b = .returned str) :
    0 ≤ b ∧ 0 ≤ qr.getSize ∧ qr.getSize + 2 * b ≤ M := by
  unfold toSvgString at h
  cases hr : toSvgStringRun M qr b with
  | returned r => exact toSvgStringRun_returned hr
  | domain_error w => rw [hr] at h; simp [Outcome.map] at h
  | overflow_error w => rw [hr] at h; simp [Outcome.map] at h
  | undefined => rw [hr] at h; simp [Outcome.map] at h

theorem toSvgString_eq (M : Int) (qr : QrCode) (b : Int)
    (hn : 0 ≤ qr.getSize) (hb : 0 ≤ b) (hM : qr.getSize + 2 * b ≤ M) :
    toSvgString M qr b = .returned (svgDocument qr b) := by
  unfold toSvgString
  rw [toSvgStringRun_eq M qr b hn hb hM]
  rfl

theorem toSvgString_neg (M : Int) (qr : QrCode) (b : Int) (hb : b < 0) :
    toSvgString M qr b = .domain_error "Border must be non-negative" := by
  unfold toSvgString toSvgStringRun
  rw [if_pos hb]
  rfl

theorem toSvgString_large (M : Int) (qr : QrCode) (b : Int)
    (hn : 0 ≤ qr.getSize) (hnM : qr.getSize ≤ M) (hb : 0 ≤ b) (hM : qr.getSize + 2 * b > M) :
    toSvgString M qr b = .overflow_error "Border too large" := by
  unfold toSvgString toSvgStringRun
  rw [if_neg (by omega), borderTooLarge_eq M qr.getSize b hn hnM hb]
  simp [hM, Outcome.map]

/-! ## Characters of the SVG text -/

theorem digitChar_isDigit (d : Nat) (h : d < 10) : (Nat.digitChar d).isDigit = true := by
  interval_cases d <;> decide

theorem toDigitsCore_isDigit : ∀ (f n : Nat) (acc : List Char),
    (∀ c ∈ acc, c.isDigit = true) → ∀ c ∈ Nat.toDigitsCore 10 f n acc, c.isDigit = true := by
  intro f
  induction f with
  | zero => intro n acc h; simpa [Nat.toDigitsCore] using h
  | succ f ih =>
    intro n acc h
    have hd := digitChar_isDigit (n % 10) (Nat.mod_lt _ (by decide))
    have hacc : ∀ c ∈ Nat.digitChar (n % 10) :: acc, c.isDigit = true := by
      intro c hc
      rcases List.mem_cons.mp hc with rfl | hc
      · exact hd
      · exact h c hc
    unfold Nat.toDigitsCore
    by_cases h0 : n / 10 = 0
    · simpa [h0] using hacc
    · simp only [h0, if_false]
      exact ih _ _ hacc

theorem repr_isDigit (n : Nat) : ∀ c ∈ (Nat.repr n).data, c.isDigit = true := by
  unfold Nat.repr Nat.toDigits
  simpa [List.asString] using toDigitsCore_isDigit (n + 1) n [] (by simp)

/-- Every character of a formatted integer is a minus sign or a decimal digit. -/
theorem sprintf_d_chars (v : Int) : ∀ c ∈ (sprintf_d v).data, c = '-' ∨ c.isDigit = true := by
  intro c hc
  unfold sprintf_d at hc
  split at hc
  · rw [String.data_append, List.mem_append] at hc
    rcases hc with hc | hc
    · left; simpa using hc
    · right; exact repr_isDigit _ c hc
  · right; exact repr_isDigit _ c hc

theorem isDigit_plain (c : Char) (h : c.isDigit = true) : plainChar c = true ∧ c ≠ 'M' := by
  simp only [Char.isDigit, Bool.and_eq_true, decide_eq_true_eq] at h
  have h1 : 48 ≤ c.toNat := h.1
  have h2 : c.toNat ≤ 57 := h.2
  constructor
  · simp only [plainChar, Bool.or_eq_true, Bool.and_eq_true, decide_eq_true_eq]
    right; omega
  · rintro rfl
    revert h2
    decide

theorem sprintf_d_plain (v : Int) : ∀ c ∈ (sprintf_d v).data, plainChar c = true ∧ c ≠ 'M' := by
  intro c hc
  rcases sprintf_d_chars v c hc with rfl | h
  · decide
  · exact isDigit_plain c h

theorem isPlain_append {s t : String} (hs : isPlain s) (ht : isPlain t) : isPlain (s ++ t) := by
  intro c hc
  rw [String.data_append, List.mem_append] at hc
  rcases hc with hc | hc
  · exact hs c hc
  · exact ht c hc

theorem sprintf_d_isPlain (v : Int) : isPlain (sprintf_d v) :=
  fun c hc => (sprintf_d_plain v c hc).1

theorem subPath_isPlain (b : Int) (p : Int × Int) : isPlain (subPath b p) := by
  unfold subPath
  repeat' apply isPlain_append
  · unfold isPlain; decide
  · exact sprintf_d_isPlain _
  · unfold isPlain; decide
  · exact sprintf_d_isPlain _
  · unfold isPlain; decide

theorem join_isPlain (l : List String) (h : ∀ t ∈ l, isPlain t) : isPlain (String.join l) := by
  induction l with
  | nil => intro c hc; simp [join_nil] at hc
  | cons a l ih =>
    rw [join_cons]
    exact isPlain_append (h a (List.mem_cons_self _ _))
      (ih (fun t ht => h t (List.mem_cons_of_mem _ ht)))

theorem pathData_isPlain (qr : QrCode) (b : Int) : isPlain (pathData qr b) := by
  apply join_isPlain
  intro t ht
  obtain ⟨p, _, rfl⟩ := List.mem_map.mp ht
  exact subPath_isPlain b p

/-- The document is plain ASCII text. -/
theorem svgDocument_isPlain (qr : QrCode) (b : Int) : isPlain (svgDocument qr b) := by
  unfold svgDocument
  repeat' apply isPlain_append
  all_goals first
    | exact sprintf_d_isPlain _
    | exact pathData_isPlain _ _
    | (unfold isPlain; decide)

theorem svgDocument_ends (qr : QrCode) (b : Int) : ∃ t : String, svgDocument qr b = t ++ "</svg>\n" :=
  ⟨_, rfl⟩

/-! ## Counting sub-paths -/

theorem count_M_sprintf_d (v : Int) : List.count 'M' (sprintf_d v).data = 0 := by
  rw [List.count_eq_zero]
  intro h
  exact (sprintf_d_plain v 'M' h).2 rfl

theorem count_M_subPath (b : Int) (p : Int × Int) : List.count 'M' (subPath b p).data = 1 := by
  unfold subPath
  simp only [String.data_append, List.count_append, count_M_sprintf_d]
  decide

theorem count_M_join_subPath (b : Int) (l : List (Int × Int)) :
    List.count 'M' (String.join (l.map (subPath b))).data = l.length := by
  induction l with
  | nil => rfl
  | cons p l ih =>
    rw [List.map_cons, join_cons, String.data_append, List.count_append, ih, count_M_subPath,
      List.length_cons]
    omega

theorem intRange_nodup : ∀ (k : Nat) (lo : Int), (intRange lo k).Nodup := by
  intro k
  induction k with
  | zero => intro lo; simp [intRange]
  | succ k ih =>
    intro lo
    simp only [intRange, List.nodup_cons, mem_intRange]
    exact ⟨by omega, ih _⟩

theorem mem_rowMajor (n : Int) (p : Int × Int) :
    p ∈ rowMajor n ↔ (0 ≤ p.1 ∧ p.1 < n) ∧ (0 ≤ p.2 ∧ p.2 < n) := by
  obtain ⟨x, y⟩ := p
  simp only [rowMajor, List.mem_flatMap, List.mem_map, mem_intRange, Prod.mk.injEq]
  constructor
  · rintro ⟨y1, hy, x1, hx, rfl, rfl⟩
    omega
  · intro h
    exact ⟨y, by omega, x, by omega, rfl, rfl⟩

theorem rowMajor_nodup (n : Int) : (rowMajor n).Nodup := by
  unfold rowMajor
  rw [List.nodup_flatMap]
  constructor
  · intro y _
    exact (intRange_nodup _ _).map (fun a b h => by simpa using h)
  · apply (intRange_nodup _ _).imp
    intro y1 y2 hne
    simp only [Function.onFun]
    intro p h1 h2
    obtain ⟨_, _, rfl⟩ := List.mem_map.mp h1
    obtain ⟨_, _, h3⟩ := List.mem_map.mp h2
    simp only [Prod.mk.injEq] at h3
    exact hne h3.2.symm

theorem darkModules_length (qr : QrCode) : (darkModules qr).length = (darkSet qr).card := by
  have hnd : (darkModules qr).Nodup := (rowMajor_nodup _).filter _
  rw [← List.toFinset_card_of_nodup hnd]
  congr 1
  ext p
  simp only [darkModules, darkSet, List.mem_toFinset, List.mem_filter, mem_rowMajor,
    Finset.mem_filter, Finset.mem_product, Finset.mem_Ico]

/-! ## `getModule` calls of the console and CGA renderers -/

theorem mem_grid (lo : Int) (k : Nat) (p : Int × Int) :
    p ∈ grid lo k ↔ (lo ≤ p.1 ∧ p.1 < lo + k) ∧ (lo ≤ p.2 ∧ p.2 < lo + k) := by
  obtain ⟨x, y⟩ := p
  simp only [grid, List.mem_flatMap, List.mem_map, mem_intRange, Prod.mk.injEq]
  constructor
  · rintro ⟨y1, hy, x1, hx, rfl, rfl⟩
    omega
  · intro h
    exact ⟨y, by omega, x, by omega, rfl, rfl⟩

theorem printQrRow_calls (qr : QrCode) (border y : Int) (s : Run) :
    (printQrRow qr border y s).calls =
      s.calls ++ (intRange (-border) (qr.getSize + border - -border).toNat).map (fun x => (x, y)) := by
  unfold printQrRow forLoop
  simp only
  rw [forCount_calls (printQrCell qr y) (fun x => [(x, y)]) (fun _ _ => rfl), flatMap_single]

theorem printQr_calls (qr : QrCode) :
    (printQr qr).calls = grid (-4) (qr.getSize + 8).toNat := by
  unfold printQr forLoop
  simp only
  rw [forCount_calls (printQrRow qr 4) _ (printQrRow_calls qr 4)]
  have h : qr.getSize + 4 - -4 = qr.getSize + 8 := by omega
  simp only [h]
  rfl

theorem setPixel_calls (x y color : Int) (s : Run) : (setPixel x y color s).calls = s.calls := by
  unfold setPixel
  split <;> rfl

theorem cgaCell_calls (qr : QrCode) (border startX startY y x : Int) (s : Run) :
    (cgaCell qr border 1 1 startX startY y x s).calls = s.calls ++ [(x, y)] := by
  unfold cgaCell forLoop
  simp only [Int.sub_zero, Int.toNat_one, forCount, setPixel_calls]

theorem printQrCGA_calls (qr : QrCode) (info : String) :
    (printQrCGA qr info).calls =
      if qr.getSize + 8 > 200 then [] else grid (-4) (qr.getSize + 8).toNat := by
  unfold printQrCGA
  simp only
  by_cases h : qr.getSize + 8 > 200
  · rw [if_pos h, if_pos (by omega)]
  · rw [if_neg h, if_neg (by omega)]
    unfold forLoop
    have h8 : qr.getSize + 4 - -4 = qr.getSize + 8 := by omega
    simp only [h8]
    rw [forCount_calls _ (fun y => (intRange (-4) (qr.getSize + 8).toNat).map (fun x => (x, y)))]
    · rfl
    · intro y s
      rw [forCount_calls _ (fun x => [(x, y)]) (fun x t => cgaCell_calls qr 4 _ _ y x t),
        flatMap_single]

/-! ## Plain text has Unix line ends only -/

theorem plainChar_lineBreak (c : Char) (hp : plainChar c = true) (hl : isLineBreak c = true) :
    c = '\n' := by
  simp only [plainChar, Bool.or_eq_true, Bool.and_eq_true, beq_iff_eq, decide_eq_true_eq] at hp
  rcases hp with (rfl | rfl) | ⟨h1, h2⟩
  · rfl
  · exact absurd hl (by decide)
  · simp only [isLineBreak, Bool.or_eq_true, beq_iff_eq] at hl
    omega

theorem isPlain_no_cr (s : String) (h : isPlain s) : '\r' ∉ s.data := by
  intro hc
  exact absurd (h '\r' hc) (by decide)

/-! ## The engine: the mask does not enter version selection -/

theorem encodeSegments_ok_version {E : Engine} {segs : List QrSegment} {ecl : Ecc}
    {minVersion maxVersion : Nat} {maskId : Option (Fin 8)} {boost : Bool} {r : Result}
    (h : encodeSegments E segs ecl minVersion maxVersion maskId boost = .ok r) :
    ∃ version unmasked,
      selectVersion E segs ecl minVersion maxVersion = some version ∧
      E.buildMatrix version (E.buildCodewords version
        (if boost then boostEcc E segs version ecl else ecl) segs) = some unmasked ∧
      r.version = version := by
  unfold encodeSegments at h
  split at h
  · simp at h
  · rename_i version hv
    simp only at h
    split at h
    · simp at h
    · rename_i unmasked hm
      simp only [Except.ok.injEq] at h
      exact ⟨version, unmasked, hv, hm, by rw [← h]⟩

/-! ## The claims -/

/-- C1, as stated, fails: on a 21 by 21 symbol both `printQr` and `printQrCGA`
call `getModule` outside the symbol, for instance at `(-4, -4)`. -/
theorem renderer_calls_leave_symbol :
    ¬ callsInRange sample21 (printQr sample21).calls ∧
    ¬ callsInRange sample21 (printQrCGA sample21 "Automatic mask").calls := by
  constructor
  · intro h
    have h1 := h (-4, -4) (by rw [printQr_calls, mem_grid]; decide)
    simp at h1
  · intro h
    have h1 := h (-4, -4) (by rw [printQrCGA_calls, if_neg (by decide), mem_grid]; decide)
    simp at h1

/-- C1, amended: every `getModule(x, y)` call of a returning `toSvgString` has
`0 <= x < getSize()` and `0 <= y < getSize()`; every call of `printQr` and of
`printQrCGA` has `-4 <= x < getSize() + 4` and `-4 <= y < getSize() + 4`, the
symbol widened by the border of 4 modules. -/
theorem renderer_calls (INT_MAX : Int) (qr : QrCode) (border : Int) (info : String) (r : Run)
    (h : toSvgStringRun INT_MAX qr border = .returned r) :
    callsInRange qr r.calls ∧
    callsInBorder qr 4 (printQr qr).calls ∧
    callsInBorder qr 4 (printQrCGA qr info).calls := by
  obtain ⟨hb, hn, hM⟩ := toSvgStringRun_returned h
  rw [toSvgStringRun_eq INT_MAX qr border hn hb hM] at h
  simp only [Outcome.returned.injEq] at h
  refine ⟨?_, ?_, ?_⟩
  · intro p hp
    rw [← h] at hp
    exact (mem_rowMajor _ p).mp hp
  · intro p hp
    rw [printQr_calls, mem_grid] at hp
    omega
  · intro p hp
    rw [printQrCGA_calls] at hp
    split at hp
    · simp at hp
    · rw [mem_grid] at hp
      omega

/-- C2: inside the guard (`0 <= getSize()`, `0 <= border`,
`getSize() + 2 * border <= INT_MAX`) `toSvgString` returns exactly the document
made of the fixed header, the view box of side `getSize() + 2 * border`, the
white rectangle and one path holding, in row-major order, one sub-path per dark
module and nothing else; the number of sub-paths is the number of dark
modules. -/
theorem toSvgString_document (INT_MAX : Int) (qr : QrCode) (border : Int)
    (hn : 0 ≤ qr.getSize) (hb : 0 ≤ border) (hM : qr.getSize + 2 * border ≤ INT_MAX) :
    toSvgString INT_MAX qr border = .returned (svgDocument qr border) ∧
    (darkModules qr).length = (darkSet qr).card ∧
    List.count 'M' (pathData qr border).data = (darkSet qr).card := by
  refine ⟨toSvgString_eq INT_MAX qr border hn hb hM, darkModules_length qr, ?_⟩
  rw [← darkModules_length]
  exact count_M_join_subPath border (darkModules qr)

/-- C3: for a symbol of side `0 <= getSize() <= INT_MAX`, `toSvgString` throws
the domain error exactly when the border is negative, throws the overflow error
exactly when the border is non-negative and `getSize() + 2 * border` exceeds
`INT_MAX`, and returns a string in every other case; for a non-negative border
the guard is evaluated without signed overflow. -/
theorem toSvgString_outcome (INT_MAX : Int) (qr : QrCode) (border : Int)
    (hn : 0 ≤ qr.getSize) (hnM : qr.getSize ≤ INT_MAX) :
    (toSvgString INT_MAX qr border = .domain_error "Border must be non-negative" ↔ border < 0) ∧
    (toSvgString INT_MAX qr border = .overflow_error "Border too large" ↔
      0 ≤ border ∧ qr.getSize + 2 * border > INT_MAX) ∧
    ((∃ str, toSvgString INT_MAX qr border = .returned str) ↔
      0 ≤ border ∧ qr.getSize + 2 * border ≤ INT_MAX) ∧
    (0 ≤ border →
      borderTooLarge INT_MAX qr.getSize border =
        some (decide (qr.getSize + 2 * border > INT_MAX))) := by
  refine ⟨?_, ?_, ?_, fun hb => borderTooLarge_eq INT_MAX qr.getSize border hn hnM hb⟩
  · constructor
    · intro h
      by_contra hb
      by_cases hM : qr.getSize + 2 * border > INT_MAX
      · rw [toSvgString_large INT_MAX qr border hn hnM (by omega) hM] at h
        simp at h
      · rw [toSvgString_eq INT_MAX qr border hn (by omega) (by omega)] at h
        simp at h
    · exact toSvgString_neg INT_MAX qr border
  · constructor
    · intro h
      by_cases hb : border < 0
      · rw [toSvgString_neg INT_MAX qr border hb] at h
        simp at h
      · by_cases hM : qr.getSize + 2 * border > INT_MAX
        · exact ⟨by omega, hM⟩
        · rw [toSvgString_eq INT_MAX qr border hn (by omega) (by omega)] at h
          simp at h
    · rintro ⟨hb, hM⟩
      exact toSvgString_large INT_MAX qr border hn hnM hb hM
  · constructor
    · rintro ⟨str, h⟩
      obtain ⟨hb, _, hM⟩ := toSvgString_returned h
      exact ⟨hb, hM⟩
    · rintro ⟨hb, hM⟩
      exact ⟨_, toSvgString_eq INT_MAX qr border hn hb hM⟩

/-- C4: in the engine as specified, when `encodeSegments` succeeds with one mask
argument (automatic or any forced id), it succeeds with every other mask
argument on the same segments, level, version range and boost flag, and the
result has the same size. -/
theorem encodeSegments_size_mask (E : Engine) (segs : List QrSegment) (ecl : Ecc)
    (minVersion maxVersion : Nat) (boostEccIfPossible : Bool)
    (mask1 mask2 : Option (Fin 8)) (r1 : Result)
    (h : encodeSegments E segs ecl minVersion maxVersion mask1 boostEccIfPossible = .ok r1) :
    ∃ r2, encodeSegments E segs ecl minVersion maxVersion mask2 boostEccIfPossible = .ok r2 ∧
      r2.size = r1.size := by
  obtain ⟨version, unmasked, hv, hm, hr⟩ := encodeSegments_ok_version h
  unfold encodeSegments
  simp only [hv, hm]
  exact ⟨_, rfl, by simp [Result.size, hr]⟩

/-- C5: a string returned by `toSvgString` contains no carriage return, its only
line-break character is the line feed, and it ends with `</svg>` followed by a
line feed. -/
theorem toSvgString_unix_newlines (INT_MAX : Int) (qr : QrCode) (border : Int) (str : String)
    (h : toSvgString INT_MAX qr border = .returned str) :
    '\r' ∉ str.data ∧
    (∀ c ∈ str.data, isLineBreak c = true → c = '\n') ∧
    ∃ front : String, str = front ++ "</svg>\n" := by
  obtain ⟨hb, hn, hM⟩ := toSvgString_returned h
  rw [toSvgString_eq INT_MAX qr border hn hb hM] at h
  simp only [Outcome.returned.injEq] at h
  subst h
  have hp := svgDocument_isPlain qr border
  exact ⟨isPlain_no_cr _ hp, fun c hc hl => plainChar_lineBreak c (hp c hc) hl,
    svgDocument_ends qr border⟩

/-! ## The claims at sample inputs -/

set_option maxRecDepth 100000 in
theorem renderer_calls_witness :
    toSvgStringRun 32767 diag3 1 =
        .returned { calls := rowMajor 3, out := svgDocument diag3 1, pixels := [] } ∧
      (callsInRange diag3 (rowMajor 3) ∧
        callsInBorder diag3 4 (printQr diag3).calls ∧
        callsInBorder diag3 4 (printQrCGA diag3 "Hello, world!").calls) :=
  ⟨by decide,
    renderer_calls 32767 diag3 1 "Hello, world!"
      { calls := rowMajor 3, out := svgDocument diag3 1, pixels := [] } (by decide)⟩

theorem toSvgString_document_witness :
    toSvgString 32767 sample21 4 = .returned (svgDocument sample21 4) ∧
      (darkModules sample21).length = (darkSet sample21).card ∧
      List.count 'M' (pathData sample21 4).data = (darkSet sample21).card :=
  toSvgString_document 32767 sample21 4 (by decide) (by decide) (by decide)

theorem toSvgString_outcome_witness :
    (toSvgString 32767 sample21 16374 = .domain_error "Border must be non-negative" ↔
        (16374 : Int) < 0) ∧
      (toSvgString 32767 sample21 16374 = .overflow_error "Border too large" ↔
        (0 : Int) ≤ 16374 ∧ sample21.getSize + 2 * 16374 > 32767) ∧
      ((∃ str, toSvgString 32767 sample21 16374 = .returned str) ↔
        (0 : Int) ≤ 16374 ∧ sample21.getSize + 2 * 16374 ≤ 32767) ∧
      ((0 : Int) ≤ 16374 →
        borderTooLarge 32767 sample21.getSize 16374 =
          some (decide (sample21.getSize + 2 * 16374 > 32767))) :=
  toSvgString_outcome 32767 sample21 16374 (by decide) (by decide)

theorem encodeSegments_size_mask_witness :
    ∃ r2, encodeSegments sampleEngine [sampleSegment] .LOW 1 40 (some 3) true = .ok r2 ∧
      r2.size = 21 :=
  encodeSegments_size_mask sampleEngine [sampleSegment] .LOW 1 40 true none (some 3)
    { version := 1, errorCorrectionLevel := .MEDIUM, mask := 0, modules := fun _ _ => false } rfl

set_option maxRecDepth 100000 in
theorem toSvgString_unix_newlines_witness :
    toSvgString 32767 diag3 1 = .returned (svgDocument diag3 1) ∧
      ('\r' ∉ (svgDocument diag3 1).data ∧
        (∀ c ∈ (svgDocument diag3 1).data, isLineBreak c = true → c = '\n') ∧
        ∃ front : String, svgDocument diag3 1 = front ++ "</svg>\n") :=
  ⟨by decide, toSvgString_unix_newlines 32767 diag3 1 (svgDocument diag3 1) (by decide)⟩

end QrDemo
